import Mathlib

/-!
# Chatter backend — verification of the comment / like / page-view subsystem

Shallow embedding of the route handlers in `app/likes_comments.py`,
`app/moderation.py`, `app/page_views.py`, `app/utils.py` and
`app/auth.py` of the Chatter repository, together with proofs about them.

Conventions of the embedding:
* Database rows are Lean structures mirroring the SQLModel classes in
  `app/models.py`; a session is a `DB` record of row lists in insertion
  order; `nextId` models the serial primary-key source.
* Timestamps (`datetime.utcnow()`) are natural numbers (seconds).
* A handler is a pure function of the session state and its inputs; an
  `HTTPException(status, detail)` becomes `Except.error ⟨status, detail⟩`,
  and a handler that commits returns the updated `DB`.
* Python strings are Lean `String`s; character-level operations
  (`re.sub`, `str.strip`, …) operate on `List Char` (ASCII semantics).
-/

namespace Chatter

/-! ## Python string primitives (ASCII model) -/

/-- Python `url.lstrip('/')`: remove every leading `'/'` character.  Each
like / comment / page-view handler applies this to normalise URLs before
storing or querying. -/
def lstripSlash (s : String) : String := ⟨s.data.dropWhile (· = '/')⟩

/-- ASCII whitespace, the characters matched by Python's `\s` class and
stripped by `str.strip()`. -/
def isSpaceChar (c : Char) : Bool :=
  c = ' ' || c = '\t' || c = '\n' || c = '\r' || c = '\x0b' || c = '\x0c'

/-- Python `str.strip()` on a character list: drop whitespace from both ends. -/
def pyStrip (l : List Char) : List Char :=
  ((l.dropWhile isSpaceChar).reverse.dropWhile isSpaceChar).reverse

/-- Recursion core of `stripTags`; the fuel argument only bounds the
recursion depth (one unit per emitted or skipped match, so the list length
suffices) and keeps the recursion structural. -/
def stripTagsGo : Nat → List Char → List Char
  | _, [] => []
  | 0, l => l
  | fuel + 1, c :: rest =>
    if c = '<' && rest.takeWhile (· ≠ '>') ≠ [] && rest.dropWhile (· ≠ '>') ≠ [] then
      stripTagsGo fuel ((rest.dropWhile (· ≠ '>')).drop 1)
    else c :: stripTagsGo fuel rest

/-- `re.sub(r'<[^>]+>', '', content)` from `moderation.sanitize_content`:
delete every leftmost non-overlapping match of `<[^>]+>` (a `'<'`, one or
more non-`'>'` characters, then `'>'`). -/
def stripTags (l : List Char) : List Char := stripTagsGo l.length l

/-- Recursion core of `collapseWs` (fuel as in `stripTagsGo`). -/
def collapseWsGo : Nat → List Char → List Char
  | _, [] => []
  | 0, l => l
  | fuel + 1, c :: rest =>
    if isSpaceChar c then ' ' :: collapseWsGo fuel (rest.dropWhile isSpaceChar)
    else c :: collapseWsGo fuel rest

/-- `re.sub(r'\s+', ' ', content)` from `moderation.sanitize_content`:
replace every maximal whitespace run by a single space. -/
def collapseWs (l : List Char) : List Char := collapseWsGo l.length l

/-- `moderation.sanitize_content`: strip HTML tags, collapse whitespace
runs to one space, then trim. -/
def sanitize_content (content : List Char) : List Char :=
  pyStrip (collapseWs (stripTags content))

/-- Python's `\w` word character (ASCII model): letters, digits, underscore. -/
def isWordChar (c : Char) : Bool := c.isAlphanum || c = '_'

/-- Recursion core of `wordsOf` (fuel as in `stripTagsGo`). -/
def wordsOfGo : Nat → List Char → List (List Char)
  | _, [] => []
  | 0, _ => []
  | fuel + 1, c :: rest =>
    if isWordChar c then
      (c :: rest.takeWhile isWordChar) :: wordsOfGo fuel (rest.dropWhile isWordChar)
    else wordsOfGo fuel rest

/-- `re.findall(r'\b\w+\b', text)`: the maximal word-character runs of the
text, in order. -/
def wordsOf (l : List Char) : List (List Char) := wordsOfGo l.length l

/-- `moderation.contains_profanity` (boolean part): lower-case the text,
split it into `\b\w+\b` words, and test membership in the loaded profanity
set.  `prof` stands for `PROFANITY_WORDS`, the lower-cased word set loaded
from `profanity_list.txt` (a data file not shipped with the sources, so the
set is a parameter here). -/
def contains_profanity (prof : List (List Char)) (text : List Char) : Bool :=
  (wordsOf (text.map Char.toLower)).any (fun w => prof.contains w)

/-- Characters allowed by `[a-zA-Z0-9-]` in the bare-domain URL pattern of
`moderation.contains_url`. -/
def isDomainChar (c : Char) : Bool := c.isAlpha || c.isDigit || c = '-'

/-- The top-level domains of the pattern
`\b[a-zA-Z0-9-]+\.(com|net|org|io|co\.uk|edu|gov)[^\s]*`, each with its
leading dot. -/
def tldList : List (List Char) :=
  [".com".data, ".net".data, ".org".data, ".io".data, ".co.uk".data,
   ".edu".data, ".gov".data]

/-- Does the list start with a non-whitespace character (`[^\s]`)? -/
def headNonspace : List Char → Bool
  | [] => false
  | c :: _ => !isSpaceChar c

/-- A match of `https?://[^\s]+` starting at the head of `s`. -/
def matchScheme (s : List Char) : Bool :=
  ("http://".data.isPrefixOf s && headNonspace (s.drop 7)) ||
  ("https://".data.isPrefixOf s && headNonspace (s.drop 8))

/-- A match of `www\.[^\s]+` starting at the head of `s`. -/
def matchWww (s : List Char) : Bool :=
  "www.".data.isPrefixOf s && headNonspace (s.drop 4)

/-- A match of `[a-zA-Z0-9-]+\.(com|…|gov)[^\s]*` starting at the head of
`s`: a non-empty run of domain characters followed by a dot and a listed
TLD (the trailing `[^\s]*` always matches). -/
def matchDomain (s : List Char) : Bool :=
  (List.range (s.length + 1)).any fun k =>
    decide (1 ≤ k) && (s.take k).all isDomainChar &&
      tldList.any (fun t => t.isPrefixOf (s.drop k))

/-- The `\b` word boundary of the bare-domain pattern, evaluated just before
position `i` of `text`. -/
def boundaryAt (text : List Char) (i : Nat) : Bool :=
  match text[i]? with
  | none => false
  | some c =>
    if i = 0 then isWordChar c
    else
      match text[i - 1]? with
      | some p => isWordChar p != isWordChar c
      | none => isWordChar c

/-- `moderation.contains_url` (boolean part): does any of the three URL
regexes match somewhere in the text?  The source applies every pattern
with `re.IGNORECASE`; this is realised by matching against the
lower-cased text, which is equivalent for these patterns: their literals
and TLD alternatives are lower-case, `[a-zA-Z0-9-]` is closed under case,
and `[^\s]`, `\b` and `\w` are invariant under `Char.toLower` (lengths
and positions are unchanged by the character-wise mapping). -/
def contains_url (text : List Char) : Bool :=
  let lower := text.map Char.toLower
  (List.range lower.length).any fun i =>
    matchScheme (lower.drop i) || matchWww (lower.drop i) ||
      (boundaryAt lower i && matchDomain (lower.drop i))

/-- The four rejection causes of `moderation.validate_comment_content`, in
the order the Python function tests them.  The interpolated tails of the
Python error messages (the concrete URLs / words found) are abstracted into
the cause. -/
inductive VError where
  | empty
  | tooLong
  | hasUrl
  | hasProfanity
deriving Repr, DecidableEq

/-- The fixed prefix of the error message attached to each cause. -/
def vmsg : VError → String
  | .empty => "Comment cannot be empty"
  | .tooLong => "Comment is too long (maximum 5000 characters)"
  | .hasUrl => "Comments cannot contain URLs or links."
  | .hasProfanity => "Comment contains inappropriate language."

/-- `moderation.validate_comment_content`: `none` means `(True, "")`,
`some e` means `(False, message)`.  The checks run in source order:
falsy-or-blank content, length over 5000, URLs, profanity. -/
def validate_comment_content (prof : List (List Char)) (content : List Char) :
    Option VError :=
  if content = [] || pyStrip content = [] then some .empty
  else if 5000 < content.length then some .tooLong
  else if contains_url content then some .hasUrl
  else if contains_profanity prof content then some .hasProfanity
  else none

/-! ## Data model (`app/models.py`)

Only the columns the verified handlers read or write are carried.
`Comment.parent_comment_id`, `Comment.reply_count`, `Comment.like_count`
and the `CommentLike` table are used throughout `app/likes_comments.py`
and `add_test_comments.py` but their declarations are absent from the
`models.py` shipped in this snapshot; they are modelled from the spec
(nested replies / comment likes) and those callers.
`flag_reasons` is a JSON-encoded list in the database; it is modelled as
the list itself (`json.loads` / `json.dumps` round-trip). -/

/-- One entry of a comment's `flag_reasons` JSON list, as appended by
`report_comment`. -/
structure FlagReason where
  reported_by : Nat
  reason : String
  details : Option String
  reported_at : Nat
deriving Repr, DecidableEq

/-- `models.User` (columns used by the verified handlers). -/
structure User where
  id : Nat
  username : String
  type : Nat := 0
  profile_picture : Option String := none
deriving Repr, DecidableEq

/-- `models.Like`. -/
structure Like where
  id : Nat
  url : String
  user_id : Nat
  created_at : Nat
deriving Repr, DecidableEq

/-- `models.Comment` (see the section comment about the reply/like
columns). -/
structure Comment where
  id : Nat
  url : String
  content : List Char
  created_at : Nat
  edited_at : Option Nat := none
  user_id : Nat
  is_flagged : Bool := false
  flag_count : Int := 0
  flag_reasons : Option (List FlagReason) := none
  is_hidden : Bool := false
  reviewed_at : Option Nat := none
  reviewed_by : Option Nat := none
  is_removed : Bool := false
  removed_at : Option Nat := none
  parent_comment_id : Option Nat := none
  reply_count : Int := 0
  like_count : Int := 0
deriving Repr, DecidableEq

/-- `models.CommentVersion`: a pre-edit snapshot of a comment. -/
structure CommentVersion where
  id : Nat
  comment_id : Nat
  content : List Char
  edited_at : Nat
deriving Repr, DecidableEq

/-- `models.CommentLike` (modelled from the spec and its callers, see the
section comment). -/
structure CommentLike where
  id : Nat
  comment_id : Nat
  user_id : Nat
  created_at : Nat
deriving Repr, DecidableEq

/-- `models.PageView`. -/
structure PageView where
  id : Nat
  url : String
  ip_address : String
  viewed_at : Nat
  user_agent : Option String := none
deriving Repr, DecidableEq

/-- The session state: the table contents in insertion order plus the
serial primary-key source. -/
structure DB where
  users : List User := []
  likes : List Like := []
  comments : List Comment := []
  commentLikes : List CommentLike := []
  versions : List CommentVersion := []
  pageViews : List PageView := []
  nextId : Nat := 1
deriving Repr

/-- `HTTPException(status_code, detail)`. -/
structure HttpError where
  status : Nat
  detail : String
deriving Repr, DecidableEq

/-! ## Request schemas (`app/schemas.py` and the deployed variants)

`CommentCreate.parent_comment_id` is read by `comment_url` but missing
from the snapshot's `schemas.py`; modelled from the spec (nested replies). -/

/-- `schemas.LikeCreate`. -/
structure LikeCreate where
  url : String
deriving Repr, DecidableEq

/-- `schemas.CommentCreate`. -/
structure CommentCreate where
  url : String
  content : List Char
  parent_comment_id : Option Nat := none
deriving Repr, DecidableEq

/-- `schemas.CommentUpdate`. -/
structure CommentUpdate where
  content : List Char
deriving Repr, DecidableEq

/-- `likes_comments.ReportCommentRequest`. -/
structure ReportCommentRequest where
  reason : String
  details : Option String := none
deriving Repr, DecidableEq

/-- `schemas.PageViewCreate` (`ip_address` is accepted but never read by
`log_page_view`, which takes the address from the request instead). -/
structure PageViewCreate where
  url : String
  ip_address : String
  user_agent : Option String := none
deriving Repr, DecidableEq

/-! ## Like handlers (`app/likes_comments.py`) -/

/-- Python truthiness of an optional integer field: `None` and `0` are
falsy.  `comment_url` guards its parent checks with
`if comment.parent_comment_id:` so both skip them. -/
def truthyNat : Option Nat → Bool
  | none => false
  | some n => n != 0

/-- `select(Comment).where(Comment.id == comment_id)).first()`. -/
def findComment (db : DB) (comment_id : Nat) : Option Comment :=
  db.comments.find? (fun c => c.id == comment_id)

/-- Response body of `POST /interact/like`. -/
structure ToggleLikeResponse where
  message : String
  liked : Bool
  like_count : Nat
deriving Repr, DecidableEq

/-- `toggle_like` (`POST /interact/like`): remove the caller's existing
like on the normalised URL, or create one, and return the fresh count. -/
def toggle_like (db : DB) (user : User) (now : Nat) (like : LikeCreate) :
    ToggleLikeResponse × DB :=
  let url := lstripSlash like.url
  match db.likes.find? (fun l => l.user_id == user.id && l.url == url) with
  | some existing_like =>
    let likes := db.likes.filter (fun l => l.id != existing_like.id)
    let like_count := (likes.filter (fun l => l.url == url)).length
    (⟨"Like removed", false, like_count⟩, { db with likes := likes })
  | none =>
    let likes := db.likes ++ [⟨db.nextId, url, user.id, now⟩]
    let like_count := (likes.filter (fun l => l.url == url)).length
    (⟨"Like added", true, like_count⟩,
      { db with likes := likes, nextId := db.nextId + 1 })

/-- Response body of `GET /interact/likes/{url}`. -/
structure CountLikesResponse where
  url : String
  like_count : Nat
deriving Repr, DecidableEq

/-- `count_likes` (`GET /interact/likes/{url}`). -/
def count_likes (db : DB) (url : String) : CountLikesResponse :=
  let url := lstripSlash url
  ⟨url, (db.likes.filter (fun l => l.url == url)).length⟩

/-! ## Comment handlers (`app/likes_comments.py`) -/

/-- The insertion performed by `comment_url` after its checks pass: add the
new comment row and, when the reply guard is truthy, bump the parent's
`reply_count` (the ORM updates the row with that primary key; this is the
map-by-id update, which coincides under primary-key uniqueness). -/
def insertComment (db : DB) (user : User) (now : Nat) (url : String)
    (sanitized : List Char) (pid : Option Nat) : Comment × DB :=
  let newComment : Comment :=
    { id := db.nextId, url := url, content := sanitized, created_at := now,
      user_id := user.id, parent_comment_id := pid }
  let withNew := db.comments ++ [newComment]
  let comments :=
    if truthyNat pid then
      withNew.map (fun c =>
        if some c.id == pid then { c with reply_count := c.reply_count + 1 } else c)
    else withNew
  (newComment, { db with comments := comments, nextId := db.nextId + 1 })

/-- `comment_url` (`POST /interact/comment`): sanitize and validate the
content, check the parent when the reply guard is truthy, then store. -/
def comment_url (db : DB) (user : User) (now : Nat) (prof : List (List Char))
    (comment : CommentCreate) : Except HttpError (Comment × DB) :=
  let sanitized := sanitize_content comment.content
  match validate_comment_content prof sanitized with
  | some e => .error ⟨400, vmsg e⟩
  | none =>
    let url := lstripSlash comment.url
    if truthyNat comment.parent_comment_id then
      match findComment db (comment.parent_comment_id.getD 0) with
      | none => .error ⟨404, "Parent comment not found"⟩
      | some parent =>
        if parent.is_removed || parent.is_hidden then
          .error ⟨400, "Cannot reply to removed or hidden comment"⟩
        else .ok (insertComment db user now url sanitized comment.parent_comment_id)
    else .ok (insertComment db user now url sanitized comment.parent_comment_id)

/-- `order_by(CommentVersion.edited_at.desc())`: newest first.  SQL
ordering is realised here (as elsewhere in this file) by a stable
insertion sort. -/
def versionDesc (a b : CommentVersion) : Prop := b.edited_at ≤ a.edited_at

instance : DecidableRel versionDesc := fun a b =>
  inferInstanceAs (Decidable (b.edited_at ≤ a.edited_at))

/-- `get_comment_versions` (`GET /interact/comments/{id}/versions`): 404
when the comment is unknown, otherwise all its versions ordered by
`edited_at` descending. -/
def get_comment_versions (db : DB) (comment_id : Nat) :
    Except HttpError (List CommentVersion) :=
  match findComment db comment_id with
  | none => .error ⟨404, "Comment not found"⟩
  | some _ =>
    .ok ((db.versions.filter (fun v => v.comment_id == comment_id)).insertionSort
      versionDesc)

/-- The join of `get_comments_with_usernames`: comments on the (already
normalised) URL that are neither hidden nor removed and have a matching
user row, in table order — the insertion order of `all_comments_dict`. -/
def visibleComments (db : DB) (url : String) : List Comment :=
  db.comments.filter (fun c =>
    c.url == url && !c.is_hidden && !c.is_removed &&
      db.users.any (fun u => u.id == c.user_id))

/-- Reply order inside a parent: `key=lambda r: r.created_at`, oldest
first. -/
def createdAsc (a b : Comment) : Prop := a.created_at ≤ b.created_at

instance : DecidableRel createdAsc := fun a b =>
  inferInstanceAs (Decidable (a.created_at ≤ b.created_at))

/-- Reply order inside a parent: `replies.sort(key=lambda r: r.created_at)`
(Python's sort is stable; realised by a stable insertion sort). -/
def sortByCreatedAt (l : List Comment) : List Comment :=
  l.insertionSort createdAsc

/-- `sort=recent` top-level order: `key=lambda c: -c.created_at.timestamp()`. -/
def recentLe (a b : Comment) : Prop := b.created_at ≤ a.created_at

instance : DecidableRel recentLe := fun a b =>
  inferInstanceAs (Decidable (b.created_at ≤ a.created_at))

/-- `sort=popular` top-level order:
`key=lambda c: (-c.like_count, -c.created_at.timestamp())`. -/
def popularLe (a b : Comment) : Prop :=
  b.like_count < a.like_count ∨
    (a.like_count = b.like_count ∧ b.created_at ≤ a.created_at)

instance : DecidableRel popularLe := fun a b =>
  inferInstanceAs (Decidable (b.like_count < a.like_count ∨
    (a.like_count = b.like_count ∧ b.created_at ≤ a.created_at)))

/-- The response of `GET /interact/comments/{url}` in flat form.  The
handler mutates shared `CommentWithUser` objects held in a dict keyed by
comment id; `topLevel` is the returned list and `repliesOf` records, for
each dict entry, its id and its final sorted `replies` list.  The nested
JSON is the unfolding of this table from `topLevel`; the per-user fields
(`username`, `user_has_liked`, …) are carried by the joined rows and not
duplicated here. -/
structure GetCommentsResult where
  topLevel : List Comment
  repliesOf : List (Nat × List Comment)
deriving Repr, DecidableEq

/-- `get_comments_with_usernames` (`GET /interact/comments/{url}`). -/
def get_comments_with_usernames (db : DB) (url : String) (sort : String) :
    GetCommentsResult :=
  let url := lstripSlash url
  let visible := visibleComments db url
  let repliesOf := visible.map (fun p =>
    (p.id, sortByCreatedAt (visible.filter
      (fun c => c.parent_comment_id == some p.id))))
  let tops := visible.filter (fun c => c.parent_comment_id == none)
  let topLevel :=
    if sort == "popular" then tops.insertionSort popularLe
    else tops.insertionSort recentLe
  ⟨topLevel, repliesOf⟩

/-- `edit_comment` (`PUT /interact/comments/{comment_id}`): author-only
edit that snapshots the previous content into `CommentVersion` before
overwriting. -/
def edit_comment (db : DB) (user : User) (now : Nat) (prof : List (List Char))
    (comment_id : Nat) (comment_update : CommentUpdate) :
    Except HttpError (Comment × DB) :=
  match findComment db comment_id with
  | none => .error ⟨404, "Comment not found"⟩
  | some comment =>
    if comment.user_id != user.id then
      .error ⟨403, "Only the original author can edit this comment"⟩
    else
      let sanitized := sanitize_content comment_update.content
      match validate_comment_content prof sanitized with
      | some e => .error ⟨400, vmsg e⟩
      | none =>
        let version : CommentVersion :=
          ⟨db.nextId, comment.id, comment.content,
            comment.edited_at.getD comment.created_at⟩
        let updated := { comment with content := sanitized, edited_at := some now }
        .ok (updated,
          { db with
            versions := db.versions ++ [version],
            comments := db.comments.map (fun c => if c.id == comment.id then updated else c),
            nextId := db.nextId + 1 })

/-- `remove_comment` (`DELETE /interact/comments/{comment_id}`): author-only
soft delete; the row stays, marked `is_removed` with `removed_at`. -/
def remove_comment (db : DB) (user : User) (now : Nat) (comment_id : Nat) :
    Except HttpError (String × DB) :=
  match findComment db comment_id with
  | none => .error ⟨404, "Comment not found"⟩
  | some comment =>
    if comment.user_id != user.id then
      .error ⟨403, "Only the original author can remove this comment"⟩
    else if comment.is_removed then
      .error ⟨400, "Comment already removed"⟩
    else
      let updated := { comment with is_removed := true, removed_at := some now }
      .ok ("Comment removed successfully",
        { db with comments := db.comments.map (fun c => if c.id == comment.id then updated else c) })

/-- `report_comment` (`POST /interact/comments/{comment_id}/report`): bump
`flag_count`, set `is_flagged`, append the reporter's entry to the
`flag_reasons` list (`[]` when the stored value is `NULL`).  Returns the
new `flag_count`. -/
def report_comment (db : DB) (user : User) (now : Nat) (comment_id : Nat)
    (report_data : ReportCommentRequest) : Except HttpError (Int × DB) :=
  match findComment db comment_id with
  | none => .error ⟨404, "Comment not found"⟩
  | some comment =>
    let existing_reasons := comment.flag_reasons.getD []
    let updated := { comment with
      flag_count := comment.flag_count + 1,
      is_flagged := true,
      flag_reasons := some (existing_reasons ++
        [⟨user.id, report_data.reason, report_data.details, now⟩]) }
    .ok (updated.flag_count,
      { db with comments := db.comments.map (fun c => if c.id == comment.id then updated else c) })

/-- `hide_comment` (`POST /interact/comments/{comment_id}/hide`): admin
only (`type = 1`); marks the comment hidden and records the review. -/
def hide_comment (db : DB) (admin : User) (now : Nat) (comment_id : Nat) :
    Except HttpError (String × DB) :=
  if admin.type != 1 then .error ⟨403, "Admin access required"⟩
  else
    match findComment db comment_id with
    | none => .error ⟨404, "Comment not found"⟩
    | some comment =>
      let updated := { comment with
        is_hidden := true, reviewed_at := some now, reviewed_by := some admin.id }
      .ok ("Comment hidden successfully",
        { db with comments := db.comments.map (fun c => if c.id == comment.id then updated else c) })

/-- Response body of `POST /interact/comments/{comment_id}/like`. -/
structure CommentLikeResponse where
  message : String
  liked : Bool
  like_count : Int
deriving Repr, DecidableEq

/-- `toggle_comment_like` (`POST /interact/comments/{comment_id}/like`):
toggle the caller's like; the decrement is clamped,
`max(0, comment.like_count - 1)`. -/
def toggle_comment_like (db : DB) (user : User) (now : Nat) (comment_id : Nat) :
    Except HttpError (CommentLikeResponse × DB) :=
  match findComment db comment_id with
  | none => .error ⟨404, "Comment not found"⟩
  | some comment =>
    match db.commentLikes.find?
        (fun l => l.comment_id == comment_id && l.user_id == user.id) with
    | some existing_like =>
      let updated := { comment with like_count := max 0 (comment.like_count - 1) }
      .ok (⟨"Comment unliked", false, updated.like_count⟩,
        { db with
          commentLikes := db.commentLikes.filter (fun l => l.id != existing_like.id),
          comments := db.comments.map (fun c => if c.id == comment.id then updated else c) })
    | none =>
      let updated := { comment with like_count := comment.like_count + 1 }
      .ok (⟨"Comment liked", true, updated.like_count⟩,
        { db with
          commentLikes := db.commentLikes ++ [⟨db.nextId, comment_id, user.id, now⟩],
          comments := db.comments.map (fun c => if c.id == comment.id then updated else c),
          nextId := db.nextId + 1 })

/-! ## Page-view handlers (`app/page_views.py`) -/

/-- `s.split(",")[0].strip()`: the text before the first comma, trimmed. -/
def firstCommaField (s : String) : String :=
  ⟨pyStrip (s.data.takeWhile (· ≠ ','))⟩

/-- Response body of `POST /page-view`. -/
structure LogPageViewResponse where
  message : String
  url : String
deriving Repr, DecidableEq

/-- `log_page_view` (`POST /page-view`, no authentication dependency):
store one `PageView` with the normalised URL and
`request.headers.get("X-Forwarded-For", request.client.host).split(",")[0].strip()`
as the IP. -/
def log_page_view (db : DB) (now : Nat) (page_view : PageViewCreate)
    (xForwardedFor : Option String) (clientHost : String) :
    LogPageViewResponse × DB :=
  let url := lstripSlash page_view.url
  let ip_address := firstCommaField (xForwardedFor.getD clientHost)
  (⟨"Page view logged", url⟩,
    { db with
      pageViews := db.pageViews ++ [⟨db.nextId, url, ip_address, now, page_view.user_agent⟩],
      nextId := db.nextId + 1 })

/-- `schemas.PageViewStats` (without `view_count_formatted`, a pure display
string of `view_count` not claimed about). -/
structure PageViewStats where
  url : String
  view_count : Nat
  unique_visitors : Nat
  last_viewed_at : Option Nat
deriving Repr, DecidableEq

/-- `get_page_view_stats` (`GET /page-views/{url}`): live counts for the
normalised URL — total rows and distinct IP addresses. -/
def get_page_view_stats (db : DB) (url : String) : PageViewStats :=
  let url := lstripSlash url
  let rows := db.pageViews.filter (fun v => v.url == url)
  { url := url,
    view_count := rows.length,
    unique_visitors := (rows.map (fun v => v.ip_address)).dedup.length,
    last_viewed_at := (rows.map (fun v => v.viewed_at)).max? }

/-! ## Auth helpers (`app/utils.py`, `app/auth.py`)

`jose.jwt` (HS256) and `passlib`'s bcrypt context are third-party
libraries; they are embedded at the level of their contracts: a token
carries its claims, the claims covered by its signature, and the signing
key — decoding succeeds exactly when the signature key matches, the claims
are the signed ones, and the `exp` claim has not passed.  A bcrypt hash
carries its salt and the hashed password; verification compares the
password. -/

/-- The payload passed to `create_access_token` (`{"sub": username}`). -/
structure TokenData where
  sub : String
deriving Repr, DecidableEq

/-- A JWT claim set: the `sub` claim plus the `exp` stamp added by
`create_access_token`. -/
structure Claims where
  sub : String
  exp : Nat
deriving Repr, DecidableEq

/-- Contract model of a signed token (see the section comment). -/
structure JwtToken where
  claims : Claims
  sigClaims : Claims
  sigKey : String
deriving Repr, DecidableEq

/-- `jose.jwt.encode(claims, key, HS256)`. -/
def jwtEncode (claims : Claims) (key : String) : JwtToken := ⟨claims, claims, key⟩

/-- `jose.jwt.decode(token, key, [HS256])` at time `now`, `None` on
`JWTError` (bad signature, tampered claims, or `exp < now`). -/
def jwtDecode (t : JwtToken) (key : String) (now : Nat) : Option Claims :=
  if t.sigKey = key ∧ t.sigClaims = t.claims ∧ ¬ t.claims.exp < now then
    some t.claims
  else none

/-- `utils.ACCESS_TOKEN_EXPIRE_MINUTES`. -/
def ACCESS_TOKEN_EXPIRE_MINUTES : Nat := 30

/-- `expires_delta or timedelta(minutes=ACCESS_TOKEN_EXPIRE_MINUTES)`,
in seconds; `timedelta(0)` is falsy in Python, so a zero delta also falls
back to the default. -/
def deltaOrDefault : Option Nat → Nat
  | some d => if d = 0 then ACCESS_TOKEN_EXPIRE_MINUTES * 60 else d
  | none => ACCESS_TOKEN_EXPIRE_MINUTES * 60

/-- `utils.create_access_token`: copy the data, add
`exp = utcnow() + (expires_delta or 30 minutes)`, sign with `SECRET_KEY`
(a parameter here, read from the environment in the source). -/
def create_access_token (secretKey : String) (now : Nat) (data : TokenData)
    (expires_delta : Option Nat) : JwtToken :=
  jwtEncode ⟨data.sub, now + deltaOrDefault expires_delta⟩ secretKey

/-- `utils.decode_access_token`: the decoded payload, or `None` on any
`JWTError`. -/
def decode_access_token (secretKey : String) (now : Nat) (token : JwtToken) :
    Option Claims :=
  jwtDecode token secretKey now

/-- Contract model of a bcrypt hash (salt choice made explicit). -/
structure BcryptHash where
  salt : Nat
  password : String
deriving Repr, DecidableEq

/-- `utils.hash_password` (`pwd_context.hash`). -/
def hash_password (salt : Nat) (password : String) : BcryptHash :=
  ⟨salt, password⟩

/-- `utils.verify_password` (`pwd_context.verify`). -/
def verify_password (plain_password : String) (hashed_password : BcryptHash) :
    Bool :=
  hashed_password.password == plain_password

/-- The value of the `access_token` cookie or `Authorization` header as
`auth.get_current_user` sees it: either `"Bearer " + token` (the 7-char
prefix is stripped) or a string without that prefix. -/
inductive Credential where
  | bearer : JwtToken → Credential
  | malformed : Credential
deriving DecidableEq

/-- The token-extraction prelude of `auth.get_current_user`: prefer a
well-formed `Authorization` header, fall back to the cookie. -/
def pickToken (token_cookie token_header : Option Credential) : Option JwtToken :=
  match token_header with
  | some (.bearer t) => some t
  | _ =>
    match token_cookie with
    | some (.bearer t) => some t
    | _ => none

/-- `auth.get_current_user`: 401 without a token, 401 when decoding fails,
404 when the `sub` user is unknown, otherwise the user. -/
def get_current_user (db : DB) (secretKey : String) (now : Nat)
    (token_cookie token_header : Option Credential) : Except HttpError User :=
  match pickToken token_cookie token_header with
  | none => .error ⟨401, "Missing token"⟩
  | some token =>
    match decode_access_token secretKey now token with
    | none => .error ⟨401, "Invalid or expired token"⟩
    | some payload =>
      match db.users.find? (fun u => u.username == payload.sub) with
      | none => .error ⟨404, "User not found"⟩
      | some user => .ok user

/-! ## Helper lemmas -/

theorem lstripSlash_slash (u : String) : lstripSlash ("/" ++ u) = lstripSlash u := by
  have h : ("/" ++ u).data = '/' :: u.data := by
    rw [String.data_append]; rfl
  simp [lstripSlash, h, List.dropWhile_cons]

theorem find?_map_invariant {α : Type} (p : α → Bool) (f : α → α) (l : List α)
    (h : ∀ a, p (f a) = p a) : (l.map f).find? p = (l.find? p).map f := by
  rw [List.find?_map]
  have he : (p ∘ f) = p := funext h
  rw [he]

/-- Updating the row with primary key `k` in place commutes with looking a
row up by id. -/
theorem findComment_map_update (l : List Comment) (k cid : Nat) (upd : Comment)
    (hid : upd.id = k) :
    (l.map (fun c => if c.id == k then upd else c)).find? (fun c => c.id == cid) =
      (l.find? (fun c => c.id == cid)).map (fun c => if c.id == k then upd else c) := by
  refine find?_map_invariant _ _ _ (fun a => ?_)
  by_cases h : a.id = k <;> simp [h, hid]

theorem dropWhile_dropWhile (p : Char → Bool) (l : List Char) :
    (l.dropWhile p).dropWhile p = l.dropWhile p := by
  induction l with
  | nil => rfl
  | cons a t ih =>
    by_cases h : p a
    · simp [List.dropWhile_cons, h, ih]
    · simp [List.dropWhile_cons, h]

theorem head_dropWhile_false (p : Char → Bool) (l : List Char) (c : Char)
    (t : List Char) (h : l.dropWhile p = c :: t) : p c = false := by
  induction l with
  | nil => simp at h
  | cons a l ih =>
    rw [List.dropWhile_cons] at h
    by_cases ha : p a
    · exact ih (by simpa [ha] using h)
    · simp [ha] at h
      simp [← h.1, ha]

theorem dropWhile_eq_self_of_head (p : Char → Bool) (l : List Char)
    (h : ∀ c t, l = c :: t → p c = false) : l.dropWhile p = l := by
  cases l with
  | nil => rfl
  | cons c t => simp [List.dropWhile_cons, h c t rfl]

theorem pyStrip_idem (l : List Char) : pyStrip (pyStrip l) = pyStrip l := by
  set X := l.dropWhile isSpaceChar with hX
  set C := (X.reverse.dropWhile isSpaceChar).reverse with hC
  have hCrev : C.reverse = X.reverse.dropWhile isSpaceChar := by
    rw [hC, List.reverse_reverse]
  have hpre : C.reverse <:+ X.reverse := by
    rw [hCrev]; exact List.dropWhile_suffix _
  have hCX : C <+: X := by
    have := hpre.reverse
    simpa using this
  have hdropC : C.dropWhile isSpaceChar = C := by
    refine dropWhile_eq_self_of_head _ _ (fun c t hct => ?_)
    obtain ⟨r, hr⟩ := hCX
    refine head_dropWhile_false isSpaceChar l c (t ++ r) ?_
    rw [← hX, ← hr, hct]; rfl
  show ((C.dropWhile isSpaceChar).reverse.dropWhile isSpaceChar).reverse = C
  rw [hdropC, hCrev, dropWhile_dropWhile, ← hCrev, List.reverse_reverse]

theorem pyStrip_sanitize (x : List Char) :
    pyStrip (sanitize_content x) = sanitize_content x := by
  unfold sanitize_content
  exact pyStrip_idem _

theorem mem_of_length_le_one {α : Type} {l : List α} (h : l.length ≤ 1)
    {a b : α} (ha : a ∈ l) (hb : b ∈ l) : a = b := by
  match l, h with
  | [], _ => simp at ha
  | [x], _ =>
    simp at ha hb
    rw [ha, hb]

/-- Removing one row of a nodup-keyed table by its key removes exactly one
element from every selection containing it. -/
theorem filter_ne_id_length (l : List Like) (e : Like) (he : e ∈ l)
    (hids : (l.map (fun x => x.id)).Nodup) (q : Like → Bool) (hq : q e = true) :
    (l.filter (fun x => q x && x.id != e.id)).length + 1 = (l.filter q).length := by
  induction l with
  | nil => simp at he
  | cons a t ih =>
    simp only [List.map_cons, List.nodup_cons, List.mem_map] at hids
    rcases List.mem_cons.mp he with hae | het
    · subst hae
      have hnot : ∀ x ∈ t, (q x && x.id != e.id) = q x := by
        intro x hx
        have : x.id ≠ e.id := fun hxe => hids.1 ⟨x, hx, hxe⟩
        simp [this]
      rw [List.filter_cons, List.filter_cons]
      simp only [hq, bne_self_eq_false, Bool.and_false, if_false, if_true]
      rw [List.filter_congr hnot]
      simp
    · have hne : a.id ≠ e.id := by
        intro hae
        exact hids.1 ⟨e, het, hae.symm⟩
      rw [List.filter_cons, List.filter_cons]
      by_cases hqa : q a = true
      · have := ih het hids.2
        simp [hqa, hne]
        omega
      · simp only [Bool.not_eq_true] at hqa
        simp only [hqa, Bool.false_and, if_false]
        exact ih het hids.2

instance : IsTotal Comment createdAsc :=
  ⟨fun a b => Nat.le_total a.created_at b.created_at⟩

instance : IsTrans Comment createdAsc :=
  ⟨fun _ _ _ hab hbc => Nat.le_trans hab hbc⟩

instance : IsTotal CommentVersion versionDesc :=
  ⟨fun a b => Nat.le_total b.edited_at a.edited_at⟩

instance : IsTrans CommentVersion versionDesc :=
  ⟨fun _ _ _ hab hbc => Nat.le_trans hbc hab⟩

theorem takeWhile_eq_self {p : Char → Bool} (l : List Char)
    (h : ∀ c ∈ l, p c = true) : l.takeWhile p = l := by
  induction l with
  | nil => rfl
  | cons a t ih =>
    rw [List.takeWhile_cons, h a (List.mem_cons_self a t)]
    simp [ih (fun c hc => h c (List.mem_cons_of_mem a hc))]

theorem pyStrip_eq_self (l : List Char) (h : ∀ c ∈ l, isSpaceChar c = false) :
    pyStrip l = l := by
  have h1 : l.dropWhile isSpaceChar = l :=
    dropWhile_eq_self_of_head _ _ (fun c t hct =>
      h c (by rw [hct]; exact List.mem_cons_self c t))
  have h2 : l.reverse.dropWhile isSpaceChar = l.reverse :=
    dropWhile_eq_self_of_head _ _ (fun c t hct =>
      h c (by
        have : c ∈ l.reverse := by rw [hct]; exact List.mem_cons_self c t
        exact List.mem_reverse.mp this))
  unfold pyStrip
  rw [h1, h2, List.reverse_reverse]

/-! ## Claim C9 — URL normalisation -/

/-- C9: every like, comment and page-view operation strips leading `'/'`
characters from the submitted URL before storing or querying, so invoking
it with `u` and with `"/" ++ u` reads and writes the same rows and returns
the same counts. -/
theorem C9_url_normalization (db : DB) (user : User) (now : Nat)
    (prof : List (List Char)) (u : String) (content : List Char)
    (pid : Option Nat) (sort ipf host : String) (ua xff : Option String) :
    toggle_like db user now ⟨"/" ++ u⟩ = toggle_like db user now ⟨u⟩ ∧
    count_likes db ("/" ++ u) = count_likes db u ∧
    comment_url db user now prof ⟨"/" ++ u, content, pid⟩ =
      comment_url db user now prof ⟨u, content, pid⟩ ∧
    get_comments_with_usernames db ("/" ++ u) sort =
      get_comments_with_usernames db u sort ∧
    log_page_view db now ⟨"/" ++ u, ipf, ua⟩ xff host =
      log_page_view db now ⟨u, ipf, ua⟩ xff host ∧
    get_page_view_stats db ("/" ++ u) = get_page_view_stats db u := by
  refine ⟨?_, ?_, ?_, ?_, ?_, ?_⟩
  · simp only [toggle_like, lstripSlash_slash]
  · simp only [count_likes, lstripSlash_slash]
  · simp only [comment_url, lstripSlash_slash]
  · simp only [get_comments_with_usernames, lstripSlash_slash]
  · simp only [log_page_view, lstripSlash_slash]
  · simp only [get_page_view_stats, lstripSlash_slash]

/-! ## Claim C8 — page-view analytics -/

/-- C8: `POST /page-view` stores one `PageView` row holding the
slash-normalised URL and the client IP — the first comma-separated entry
of `X-Forwarded-For` when the header is present, otherwise the connection
address — and `GET /page-views/{url}` returns `view_count` equal to the
number of stored views for the URL and `unique_visitors` equal to the
number of distinct IP addresses among them.  (The handler takes no user
dependency: authentication plays no part in its inputs.) -/
theorem C8_page_view_analytics (db : DB) (now : Nat) (pv : PageViewCreate)
    (xff : Option String) (host : String) (u2 : String) :
    ((log_page_view db now pv xff host).2.pageViews =
      db.pageViews ++ [⟨db.nextId, lstripSlash pv.url,
        firstCommaField (xff.getD host), now, pv.user_agent⟩]) ∧
    (∀ h, xff = some h → firstCommaField (xff.getD host) = firstCommaField h) ∧
    (xff = none → (∀ c ∈ host.data, ¬ c = ',' ∧ isSpaceChar c = false) →
      firstCommaField (xff.getD host) = host) ∧
    ((get_page_view_stats db u2).view_count =
      (db.pageViews.filter (fun v => v.url == lstripSlash u2)).length) ∧
    ((get_page_view_stats db u2).unique_visitors =
      ((db.pageViews.filter (fun v => v.url == lstripSlash u2)).map
        (fun v => v.ip_address)).toFinset.card) := by
  refine ⟨rfl, ?_, ?_, rfl, ?_⟩
  · intro h hx
    rw [hx]
    rfl
  · intro hx hhost
    rw [hx]
    show firstCommaField host = host
    unfold firstCommaField
    rw [takeWhile_eq_self _ (fun c hc => by
      have := (hhost c hc).1
      simp [this])]
    rw [pyStrip_eq_self _ (fun c hc => (hhost c hc).2)]
  · rw [List.card_toFinset]
    rfl

/-- Witness for C8 at concrete inputs. -/
theorem C8_page_view_analytics_witness :
    ((log_page_view { nextId := 4 } 7 ⟨"/a/b", "ignored", none⟩
        (some " 1.2.3.4 ,5.6.7.8") "9.9.9.9").2.pageViews =
      [⟨4, "a/b", "1.2.3.4", 7, none⟩]) ∧
    firstCommaField (Option.getD none "10.0.0.7") = "10.0.0.7" := by
  constructor
  · have h := (C8_page_view_analytics { nextId := 4 } 7 ⟨"/a/b", "ignored", none⟩
      (some " 1.2.3.4 ,5.6.7.8") "9.9.9.9" "x").1
    rw [h]
    decide
  · exact (C8_page_view_analytics { nextId := 4 } 7 ⟨"/a/b", "ignored", none⟩
      none "10.0.0.7" "x").2.2.1 rfl (by decide)

/-! ## Claim C7 — password / token auth helpers -/

/-- C7: `verify_password p (hash_password p)` always holds; decoding a
token created by `create_access_token` before its expiry (default 30
minutes) recovers the `sub` claim; decoding returns `None` for a tampered,
forged or expired token; and `get_current_user` answers 401 whenever the
request carries no token or a token that decodes to `None`. -/
theorem C7_auth_helpers :
    (∀ (salt : Nat) (p : String), verify_password p (hash_password salt p) = true) ∧
    (∀ (key : String) (now t : Nat) (data : TokenData) (delta : Option Nat),
      t ≤ now + deltaOrDefault delta →
      decode_access_token key t (create_access_token key now data delta) =
        some ⟨data.sub, now + deltaOrDefault delta⟩) ∧
    deltaOrDefault none = 30 * 60 ∧
    (∀ (key : String) (t : Nat) (tok : JwtToken),
      tok.sigClaims ≠ tok.claims → decode_access_token key t tok = none) ∧
    (∀ (key : String) (t : Nat) (tok : JwtToken),
      tok.sigKey ≠ key → decode_access_token key t tok = none) ∧
    (∀ (key : String) (t : Nat) (tok : JwtToken),
      tok.claims.exp < t → decode_access_token key t tok = none) ∧
    (∀ (db : DB) (key : String) (now : Nat) (cookie header : Option Credential),
      pickToken cookie header = none →
      get_current_user db key now cookie header = .error ⟨401, "Missing token"⟩) ∧
    (∀ (db : DB) (key : String) (now : Nat) (cookie header : Option Credential)
      (tok : JwtToken),
      pickToken cookie header = some tok →
      decode_access_token key now tok = none →
      get_current_user db key now cookie header =
        .error ⟨401, "Invalid or expired token"⟩) := by
  refine ⟨?_, ?_, rfl, ?_, ?_, ?_, ?_, ?_⟩
  · intro salt p
    simp [verify_password, hash_password]
  · intro key now t data delta h
    simp [decode_access_token, create_access_token, jwtEncode, jwtDecode, Nat.not_lt, h]
  · intro key t tok h
    simp only [decode_access_token, jwtDecode]
    rw [if_neg]
    intro hc
    exact h hc.2.1
  · intro key t tok h
    simp only [decode_access_token, jwtDecode]
    rw [if_neg]
    intro hc
    exact h hc.1
  · intro key t tok h
    simp only [decode_access_token, jwtDecode]
    rw [if_neg]
    intro hc
    exact hc.2.2 h
  · intro db key now cookie header h
    simp [get_current_user, h]
  · intro db key now cookie header tok h hd
    simp [get_current_user, h, hd]

/-- Witness for C7 at concrete inputs. -/
theorem C7_auth_helpers_witness :
    verify_password "hunter2" (hash_password 3 "hunter2") = true ∧
    decode_access_token "k" 100 (create_access_token "k" 0 ⟨"kev"⟩ none) =
      some ⟨"kev", 0 + deltaOrDefault none⟩ ∧
    decode_access_token "k" 10 ⟨⟨"a", 99⟩, ⟨"b", 99⟩, "k"⟩ = none ∧
    decode_access_token "k" 2000 (create_access_token "k" 0 ⟨"kev"⟩ none) = none ∧
    get_current_user {} "k" 0 none none = .error ⟨401, "Missing token"⟩ ∧
    get_current_user {} "k" 9999 (some (.bearer (create_access_token "k" 0 ⟨"kev"⟩ none)))
        none = .error ⟨401, "Invalid or expired token"⟩ :=
  ⟨C7_auth_helpers.1 3 "hunter2",
   C7_auth_helpers.2.1 "k" 0 100 ⟨"kev"⟩ none (by decide),
   C7_auth_helpers.2.2.2.1 "k" 10 ⟨⟨"a", 99⟩, ⟨"b", 99⟩, "k"⟩ (by decide),
   C7_auth_helpers.2.2.2.2.2.1 "k" 2000 (create_access_token "k" 0 ⟨"kev"⟩ none)
     (by decide),
   C7_auth_helpers.2.2.2.2.2.2.1 {} "k" 0 none none rfl,
   C7_auth_helpers.2.2.2.2.2.2.2 {} "k" 9999
     (some (.bearer (create_access_token "k" 0 ⟨"kev"⟩ none))) none
     (create_access_token "k" 0 ⟨"kev"⟩ none) rfl (by decide)⟩

/-! ## Shape lemmas for `get_comments_with_usernames` -/

theorem repliesOf_eq (db : DB) (u s : String) :
    (get_comments_with_usernames db u s).repliesOf =
      (visibleComments db (lstripSlash u)).map (fun p =>
        (p.id, sortByCreatedAt ((visibleComments db (lstripSlash u)).filter
          (fun c => c.parent_comment_id == some p.id)))) := rfl

theorem topLevel_eq (db : DB) (u s : String) :
    (get_comments_with_usernames db u s).topLevel =
      (if s == "popular" then
        ((visibleComments db (lstripSlash u)).filter
          (fun c => c.parent_comment_id == none)).insertionSort popularLe
      else
        ((visibleComments db (lstripSlash u)).filter
          (fun c => c.parent_comment_id == none)).insertionSort recentLe) := rfl

theorem mem_visible_flags (db : DB) (u : String) (c : Comment)
    (h : c ∈ visibleComments db u) : c.is_hidden = false ∧ c.is_removed = false := by
  have := (List.mem_filter.mp h).2
  simp only [Bool.and_eq_true, Bool.not_eq_true'] at this
  exact ⟨this.1.1.2, this.1.2⟩

theorem mem_topLevel_visible (db : DB) (u s : String) (c : Comment)
    (h : c ∈ (get_comments_with_usernames db u s).topLevel) :
    c ∈ visibleComments db (lstripSlash u) := by
  rw [topLevel_eq] at h
  by_cases hs : (s == "popular") = true
  · rw [if_pos hs] at h
    have := (List.perm_insertionSort popularLe _).mem_iff.mp h
    exact (List.mem_filter.mp this).1
  · rw [if_neg hs] at h
    have := (List.perm_insertionSort recentLe _).mem_iff.mp h
    exact (List.mem_filter.mp this).1

theorem mem_replies_visible (db : DB) (u s : String) (pr : Nat × List Comment)
    (hpr : pr ∈ (get_comments_with_usernames db u s).repliesOf) (c : Comment)
    (hc : c ∈ pr.2) : c ∈ visibleComments db (lstripSlash u) := by
  rw [repliesOf_eq] at hpr
  obtain ⟨p, _, hpeq⟩ := List.mem_map.mp hpr
  rw [← hpeq] at hc
  have := (List.perm_insertionSort createdAsc _).mem_iff.mp hc
  exact (List.mem_filter.mp this).1

/-! ## Claim C3 — soft delete -/

/-- C3: `DELETE /interact/comments/{id}` answers 404 for an unknown
comment, 403 for a non-author, 400 when already removed (each failure a
plain error with no state returned); on success the row is kept, marked
`is_removed` with `removed_at` set; and removed comments are never part of
a `GET /interact/comments/{url}` response. -/
theorem C3_soft_delete (db : DB) (user : User) (now : Nat) (cid : Nat)
    (dbg : DB) (urlg sortg : String) :
    (findComment db cid = none →
      remove_comment db user now cid = .error ⟨404, "Comment not found"⟩) ∧
    (∀ c, findComment db cid = some c → c.user_id ≠ user.id →
      remove_comment db user now cid =
        .error ⟨403, "Only the original author can remove this comment"⟩) ∧
    (∀ c, findComment db cid = some c → c.user_id = user.id → c.is_removed = true →
      remove_comment db user now cid = .error ⟨400, "Comment already removed"⟩) ∧
    (∀ c, findComment db cid = some c → c.user_id = user.id → c.is_removed = false →
      ∃ db', remove_comment db user now cid = .ok ("Comment removed successfully", db') ∧
        findComment db' cid = some { c with is_removed := true, removed_at := some now } ∧
        db'.comments.length = db.comments.length) ∧
    (∀ c : Comment, c.is_removed = true →
      c ∉ (get_comments_with_usernames dbg urlg sortg).topLevel ∧
      ∀ pr ∈ (get_comments_with_usernames dbg urlg sortg).repliesOf, c ∉ pr.2) := by
  refine ⟨?_, ?_, ?_, ?_, ?_⟩
  · intro h
    simp [remove_comment, h]
  · intro c hc hu
    simp [remove_comment, hc, hu]
  · intro c hc hu hr
    simp [remove_comment, hc, hu, hr]
  · intro c hc hu hr
    refine ⟨{ db with comments := db.comments.map (fun x =>
      if x.id == c.id then { c with is_removed := true, removed_at := some now } else x) },
      ?_, ?_, by simp⟩
    · simp [remove_comment, hc, hu, hr]
    · show (db.comments.map (fun x => if x.id == c.id then
          { c with is_removed := true, removed_at := some now } else x)).find?
          (fun x => x.id == cid) =
        some { c with is_removed := true, removed_at := some now }
      rw [findComment_map_update db.comments c.id cid
          ({ c with is_removed := true, removed_at := some now }) rfl,
        show db.comments.find? (fun x => x.id == cid) = some c from hc]
      simp
  · intro c hrem
    constructor
    · intro hmem
      have := (mem_visible_flags _ _ _ (mem_topLevel_visible _ _ _ _ hmem)).2
      rw [hrem] at this
      simp at this
    · intro pr hpr hmem
      have := (mem_visible_flags _ _ _ (mem_replies_visible _ _ _ _ hpr _ hmem)).2
      rw [hrem] at this
      simp at this

/-- A one-comment database used by the C3 witness. -/
def c3comment : Comment :=
  { id := 3, url := "a", content := "hi".data, created_at := 1, user_id := 7 }

/-- A one-comment database used by the C3 witness. -/
def c3db : DB :=
  { users := [⟨7, "kev", 0, none⟩], comments := [c3comment], nextId := 4 }

/-- Witness for C3 at concrete inputs. -/
theorem C3_soft_delete_witness :
    (∃ db', remove_comment c3db ⟨7, "kev", 0, none⟩ 9 3 =
        .ok ("Comment removed successfully", db') ∧
      findComment db' 3 = some { c3comment with is_removed := true, removed_at := some 9 } ∧
      db'.comments.length = 1) ∧
    remove_comment { comments := [] } ⟨7, "kev", 0, none⟩ 9 3 =
      .error ⟨404, "Comment not found"⟩ := by
  constructor
  · have h := (C3_soft_delete c3db ⟨7, "kev", 0, none⟩ 9 3
      {} "x" "recent").2.2.2.1 c3comment (by decide) rfl rfl
    obtain ⟨db', h1, h2, h3⟩ := h
    exact ⟨db', h1, h2, by rw [h3]; rfl⟩
  · exact (C3_soft_delete { comments := [] } ⟨7, "kev", 0, none⟩ 9 3
      {} "x" "recent").1 rfl

/-! ## Claim C4 — edit history -/

/-- C4: `PUT /interact/comments/{id}` answers 404 for an unknown comment
and 403 for a non-author; every successful edit appends exactly one
`CommentVersion` holding the pre-edit content stamped with the previous
`edited_at` (or `created_at` for a first edit) and overwrites the content,
setting `edited_at`; and `GET /interact/comments/{id}/versions` returns
all saved versions of the comment sorted by `edited_at` newest-first. -/
theorem C4_edit_history (db : DB) (user : User) (now : Nat)
    (prof : List (List Char)) (cid : Nat) (cu : CommentUpdate)
    (db2 : DB) (cid2 : Nat) :
    (findComment db cid = none →
      edit_comment db user now prof cid cu = .error ⟨404, "Comment not found"⟩) ∧
    (∀ c, findComment db cid = some c → c.user_id ≠ user.id →
      edit_comment db user now prof cid cu =
        .error ⟨403, "Only the original author can edit this comment"⟩) ∧
    (∀ r db', edit_comment db user now prof cid cu = .ok (r, db') →
      ∃ c, findComment db cid = some c ∧
        db'.versions = db.versions ++
          [⟨db.nextId, c.id, c.content, c.edited_at.getD c.created_at⟩] ∧
        r = { c with content := sanitize_content cu.content, edited_at := some now } ∧
        findComment db' cid = some r) ∧
    (∀ vs, get_comment_versions db2 cid2 = .ok vs →
      vs.Perm (db2.versions.filter (fun v => v.comment_id == cid2)) ∧
      List.Sorted versionDesc vs) := by
  refine ⟨?_, ?_, ?_, ?_⟩
  · intro h
    simp [edit_comment, h]
  · intro c hc hu
    simp [edit_comment, hc, hu]
  · intro r db' hok
    cases hf : findComment db cid with
    | none => rw [edit_comment, hf] at hok; simp at hok
    | some c =>
      rw [edit_comment, hf] at hok
      simp only at hok
      by_cases hu : (c.user_id != user.id) = true
      · rw [if_pos hu] at hok; simp at hok
      · rw [if_neg hu] at hok
        cases hv : validate_comment_content prof (sanitize_content cu.content) with
        | some e => rw [hv] at hok; simp at hok
        | none =>
          rw [hv] at hok
          simp only [Except.ok.injEq, Prod.mk.injEq] at hok
          obtain ⟨hr, hdb⟩ := hok
          refine ⟨c, rfl, ?_, hr.symm, ?_⟩
          · rw [← hdb]
          · rw [← hdb, ← hr]
            show (db.comments.map (fun x => if x.id == c.id then
                { c with content := sanitize_content cu.content, edited_at := some now }
                else x)).find? (fun x => x.id == cid) = _
            rw [findComment_map_update db.comments c.id cid
                ({ c with content := sanitize_content cu.content, edited_at := some now }) rfl,
              show db.comments.find? (fun x => x.id == cid) = some c from hf]
            simp
  · intro vs hvs
    cases hf : findComment db2 cid2 with
    | none => rw [get_comment_versions, hf] at hvs; simp at hvs
    | some c =>
      rw [get_comment_versions, hf] at hvs
      simp only [Except.ok.injEq] at hvs
      rw [← hvs]
      exact ⟨List.perm_insertionSort _ _, List.sorted_insertionSort _ _⟩

/-- The comment edited in the C4 witness. -/
def c4comment : Comment :=
  { id := 3, url := "a", content := "old text".data, created_at := 1,
    edited_at := some 4, user_id := 7 }

/-- The one-comment database of the C4 witness. -/
def c4db : DB :=
  { users := [⟨7, "kev", 0, none⟩], comments := [c4comment],
    versions := [⟨2, 3, "older".data, 1⟩], nextId := 5 }

/-- The comment and database produced by the C4 witness edit. -/
def c4edited : Comment :=
  { c4comment with content := "new text".data, edited_at := some 9 }

/-- The database state after the C4 witness edit. -/
def c4dbAfter : DB :=
  { c4db with
    comments := [c4edited],
    versions := [⟨2, 3, "older".data, 1⟩, ⟨5, 3, "old text".data, 4⟩],
    nextId := 6 }

/-- Witness for C4 at concrete inputs. -/
theorem C4_edit_history_witness :
    (∃ c, findComment c4db 3 = some c ∧
      c4dbAfter.versions = c4db.versions ++
        [⟨c4db.nextId, c.id, c.content, c.edited_at.getD c.created_at⟩] ∧
      findComment c4dbAfter 3 = some c4edited) ∧
    get_comment_versions c4dbAfter 3 =
      .ok [⟨5, 3, "old text".data, 4⟩, ⟨2, 3, "older".data, 1⟩] ∧
    List.Sorted versionDesc [⟨5, 3, "old text".data, 4⟩, ⟨2, 3, "older".data, 1⟩] := by
  refine ⟨?_, by rfl, ?_⟩
  · obtain ⟨c, hfc, hvers, hr, hfind⟩ :=
      (C4_edit_history c4db ⟨7, "kev", 0, none⟩ 9 [] 3 ⟨" new text ".data⟩
        c4db 3).2.2.1 c4edited c4dbAfter (by rfl)
    exact ⟨c, hfc, hvers, hfind⟩
  · exact ((C4_edit_history c4db ⟨7, "kev", 0, none⟩ 9 [] 3 ⟨" new text ".data⟩
      c4dbAfter 3).2.2.2 [⟨5, 3, "old text".data, 4⟩, ⟨2, 3, "older".data, 1⟩]
      (by rfl)).2

/-! ## Claim C5 — flagging and moderation -/

/-- C5: `POST /interact/comments/{id}/report` (no admin check) increments
`flag_count` by exactly one, sets `is_flagged`, and appends the reporter's
entry to the stored `flag_reasons` list; `POST .../hide` requires an admin
(`type = 1`, else 403) and sets `is_hidden`; and hidden comments are never
part of a `GET /interact/comments/{url}` response. -/
theorem C5_flagging_moderation (db : DB) (user : User) (now : Nat) (cid : Nat)
    (rep : ReportCommentRequest) (db2 : DB) (admin : User) (now2 cid2 : Nat)
    (dbg : DB) (urlg sortg : String) :
    (∀ c, findComment db cid = some c →
      ∃ db', report_comment db user now cid rep = .ok (c.flag_count + 1, db') ∧
        findComment db' cid = some { c with
          flag_count := c.flag_count + 1,
          is_flagged := true,
          flag_reasons := some (c.flag_reasons.getD [] ++
            [⟨user.id, rep.reason, rep.details, now⟩]) }) ∧
    (findComment db cid = none →
      report_comment db user now cid rep = .error ⟨404, "Comment not found"⟩) ∧
    (admin.type ≠ 1 →
      hide_comment db2 admin now2 cid2 = .error ⟨403, "Admin access required"⟩) ∧
    (∀ c, admin.type = 1 → findComment db2 cid2 = some c →
      ∃ db', hide_comment db2 admin now2 cid2 = .ok ("Comment hidden successfully", db') ∧
        findComment db' cid2 = some { c with
          is_hidden := true, reviewed_at := some now2, reviewed_by := some admin.id }) ∧
    (∀ c : Comment, c.is_hidden = true →
      c ∉ (get_comments_with_usernames dbg urlg sortg).topLevel ∧
      ∀ pr ∈ (get_comments_with_usernames dbg urlg sortg).repliesOf, c ∉ pr.2) := by
  refine ⟨?_, ?_, ?_, ?_, ?_⟩
  · intro c hc
    refine ⟨{ db with comments := db.comments.map (fun x =>
      if x.id == c.id then { c with
        flag_count := c.flag_count + 1,
        is_flagged := true,
        flag_reasons := some (c.flag_reasons.getD [] ++
          [⟨user.id, rep.reason, rep.details, now⟩]) } else x) }, ?_, ?_⟩
    · simp [report_comment, hc]
    · show (db.comments.map (fun x => if x.id == c.id then { c with
          flag_count := c.flag_count + 1,
          is_flagged := true,
          flag_reasons := some (c.flag_reasons.getD [] ++
            [⟨user.id, rep.reason, rep.details, now⟩]) } else x)).find?
          (fun x => x.id == cid) = _
      rw [findComment_map_update db.comments c.id cid
          ({ c with
            flag_count := c.flag_count + 1,
            is_flagged := true,
            flag_reasons := some (c.flag_reasons.getD [] ++
              [⟨user.id, rep.reason, rep.details, now⟩]) }) rfl,
        show db.comments.find? (fun x => x.id == cid) = some c from hc]
      simp
  · intro h
    simp [report_comment, h]
  · intro h
    have hb : (admin.type != 1) = true := by simp [h]
    simp [hide_comment, hb]
  · intro c hadmin hc
    have hb : (admin.type != 1) = false := by simp [hadmin]
    refine ⟨{ db2 with comments := db2.comments.map (fun x =>
      if x.id == c.id then { c with
        is_hidden := true, reviewed_at := some now2, reviewed_by := some admin.id }
      else x) }, ?_, ?_⟩
    · simp [hide_comment, hb, hc]
    · show (db2.comments.map (fun x => if x.id == c.id then { c with
          is_hidden := true, reviewed_at := some now2, reviewed_by := some admin.id }
          else x)).find? (fun x => x.id == cid2) = _
      rw [findComment_map_update db2.comments c.id cid2
          ({ c with is_hidden := true, reviewed_at := some now2, reviewed_by := some admin.id })
          rfl,
        show db2.comments.find? (fun x => x.id == cid2) = some c from hc]
      simp
  · intro c hhid
    constructor
    · intro hmem
      have := (mem_visible_flags _ _ _ (mem_topLevel_visible _ _ _ _ hmem)).1
      rw [hhid] at this
      simp at this
    · intro pr hpr hmem
      have := (mem_visible_flags _ _ _ (mem_replies_visible _ _ _ _ hpr _ hmem)).1
      rw [hhid] at this
      simp at this

/-- The comment reported and hidden in the C5 witness. -/
def c5comment : Comment :=
  { id := 3, url := "a", content := "hi".data, created_at := 1, user_id := 7,
    flag_count := 2, is_flagged := true,
    flag_reasons := some [⟨8, "spam", none, 0⟩] }

/-- The database of the C5 witness. -/
def c5db : DB :=
  { users := [⟨7, "kev", 0, none⟩], comments := [c5comment], nextId := 4 }

/-- Witness for C5 at concrete inputs. -/
theorem C5_flagging_moderation_witness :
    (∃ db', report_comment c5db ⟨8, "bob", 0, none⟩ 9 3 ⟨"abusive", some "rude"⟩ =
        .ok (3, db') ∧
      findComment db' 3 = some { c5comment with
        flag_count := 3, is_flagged := true,
        flag_reasons := some [⟨8, "spam", none, 0⟩, ⟨8, "abusive", some "rude", 9⟩] }) ∧
    hide_comment c5db ⟨9, "eve", 0, none⟩ 9 3 = .error ⟨403, "Admin access required"⟩ ∧
    (∃ db', hide_comment c5db ⟨1, "root", 1, none⟩ 9 3 =
        .ok ("Comment hidden successfully", db') ∧
      findComment db' 3 = some { c5comment with
        is_hidden := true, reviewed_at := some 9, reviewed_by := some 1 }) := by
  refine ⟨?_, ?_, ?_⟩
  · have h := (C5_flagging_moderation c5db ⟨8, "bob", 0, none⟩ 9 3
      ⟨"abusive", some "rude"⟩ c5db ⟨9, "eve", 0, none⟩ 9 3 {} "x" "recent").1
      c5comment (by decide)
    obtain ⟨db', h1, h2⟩ := h
    exact ⟨db', h1, h2⟩
  · exact (C5_flagging_moderation c5db ⟨8, "bob", 0, none⟩ 9 3
      ⟨"abusive", some "rude"⟩ c5db ⟨9, "eve", 0, none⟩ 9 3 {} "x" "recent").2.2.1
      (by decide)
  · exact (C5_flagging_moderation c5db ⟨8, "bob", 0, none⟩ 9 3
      ⟨"abusive", some "rude"⟩ c5db ⟨1, "root", 1, none⟩ 9 3 {} "x" "recent").2.2.2.1
      c5comment rfl (by decide)

/-! ## Claim C2 — comment input validation -/

/-- For already-stripped content (every `sanitize_content` result is), the
validator rejects exactly on the four conditions of the source, in order. -/
theorem validate_some_iff (prof : List (List Char)) (s : List Char)
    (h : pyStrip s = s) :
    (∃ e, validate_comment_content prof s = some e) ↔
      (s = [] ∨ 5000 < s.length ∨ contains_url s = true ∨
        contains_profanity prof s = true) := by
  unfold validate_comment_content
  rw [h]
  by_cases h1 : s = [] <;> by_cases h2 : 5000 < s.length <;>
    by_cases h3 : contains_url s = true <;>
    by_cases h4 : contains_profanity prof s = true <;>
    simp [h1, h2, h3, h4]

/-- C2: `POST /interact/comment` and `PUT /interact/comments/{id}` first
sanitize the submitted content (strip HTML tags, collapse whitespace,
trim), then answer 400 exactly when the sanitized content is empty, longer
than 5000 characters, contains a URL, or contains a profanity-list word;
otherwise the comment is stored with the sanitized content.  (For `PUT`
the 404/403 checks run first, hence the found-author hypotheses; for
`POST` a reply to a removed parent can also yield a 400 after validation
passes, hence the top-level-comment hypothesis.) -/
theorem C2_comment_input_validation (db : DB) (user : User) (now : Nat)
    (prof : List (List Char)) (input : CommentCreate) (cid : Nat)
    (cu : CommentUpdate) :
    (input.parent_comment_id = none →
      ((∃ d, comment_url db user now prof input = .error ⟨400, d⟩) ↔
        (sanitize_content input.content = [] ∨
         5000 < (sanitize_content input.content).length ∨
         contains_url (sanitize_content input.content) = true ∨
         contains_profanity prof (sanitize_content input.content) = true)) ∧
      (∀ r db', comment_url db user now prof input = .ok (r, db') →
        r.content = sanitize_content input.content ∧ r ∈ db'.comments)) ∧
    (∀ c, findComment db cid = some c → c.user_id = user.id →
      ((∃ d, edit_comment db user now prof cid cu = .error ⟨400, d⟩) ↔
        (sanitize_content cu.content = [] ∨
         5000 < (sanitize_content cu.content).length ∨
         contains_url (sanitize_content cu.content) = true ∨
         contains_profanity prof (sanitize_content cu.content) = true))) ∧
    (∀ r db', edit_comment db user now prof cid cu = .ok (r, db') →
      r.content = sanitize_content cu.content) := by
  refine ⟨?_, ?_, ?_⟩
  · intro hpar
    constructor
    · rw [← validate_some_iff prof _ (pyStrip_sanitize input.content)]
      cases hv : validate_comment_content prof (sanitize_content input.content) with
      | some e =>
        constructor
        · intro _
          exact ⟨e, rfl⟩
        · intro _
          exact ⟨vmsg e, by simp [comment_url, hv]⟩
      | none =>
        constructor
        · intro hd
          obtain ⟨d, hd⟩ := hd
          rw [show comment_url db user now prof input =
              .ok (insertComment db user now (lstripSlash input.url)
                (sanitize_content input.content) input.parent_comment_id)
            from by simp [comment_url, hv, hpar, truthyNat]] at hd
          exact absurd hd (by simp)
        · intro he
          obtain ⟨e, he⟩ := he
          simp at he
    · intro r db' hok
      cases hv : validate_comment_content prof (sanitize_content input.content) with
      | some e =>
        rw [show comment_url db user now prof input = .error ⟨400, vmsg e⟩
          from by simp [comment_url, hv]] at hok
        exact absurd hok (by simp)
      | none =>
        rw [show comment_url db user now prof input =
            .ok (insertComment db user now (lstripSlash input.url)
              (sanitize_content input.content) input.parent_comment_id)
          from by simp [comment_url, hv, hpar, truthyNat]] at hok
        simp only [insertComment, hpar, truthyNat, Except.ok.injEq,
          Prod.mk.injEq] at hok
        obtain ⟨hr, hdb⟩ := hok
        refine ⟨by rw [← hr], ?_⟩
        rw [← hdb, ← hr]
        simp
  · intro c hc hauth
    have hb : (c.user_id != user.id) = false := by simp [hauth]
    rw [← validate_some_iff prof _ (pyStrip_sanitize cu.content)]
    cases hv : validate_comment_content prof (sanitize_content cu.content) with
    | some e =>
      constructor
      · intro _
        exact ⟨e, rfl⟩
      · intro _
        exact ⟨vmsg e, by simp [edit_comment, hc, hb, hv]⟩
    | none =>
      constructor
      · intro hd
        obtain ⟨d, hd⟩ := hd
        rw [show edit_comment db user now prof cid cu =
            .ok ({ c with content := sanitize_content cu.content, edited_at := some now },
              { db with
                versions := db.versions ++
                  [⟨db.nextId, c.id, c.content, c.edited_at.getD c.created_at⟩],
                comments := db.comments.map (fun x => if x.id == c.id then
                  { c with content := sanitize_content cu.content, edited_at := some now }
                  else x),
                nextId := db.nextId + 1 })
          from by simp [edit_comment, hc, hb, hv]] at hd
        exact absurd hd (by simp)
      · intro he
        obtain ⟨e, he⟩ := he
        simp at he
  · intro r db' hok
    cases hf : findComment db cid with
    | none => rw [edit_comment, hf] at hok; simp at hok
    | some c =>
      rw [edit_comment, hf] at hok
      simp only at hok
      by_cases hu : (c.user_id != user.id) = true
      · rw [if_pos hu] at hok; simp at hok
      · rw [if_neg hu] at hok
        cases hv : validate_comment_content prof (sanitize_content cu.content) with
        | some e => rw [hv] at hok; simp at hok
        | none =>
          rw [hv] at hok
          simp only [Except.ok.injEq, Prod.mk.injEq] at hok
          rw [← hok.1]

/-- Witness for C2 at concrete inputs. -/
theorem C2_comment_input_validation_witness :
    (∃ d, comment_url { users := [⟨7, "kev", 0, none⟩], nextId := 2 }
      ⟨7, "kev", 0, none⟩ 5 [] ⟨"a", "<b> </b>".data, none⟩ = .error ⟨400, d⟩) ∧
    (∀ r db', comment_url { users := [⟨7, "kev", 0, none⟩], nextId := 2 }
      ⟨7, "kev", 0, none⟩ 5 [] ⟨"a", "  hi   there ".data, none⟩ = .ok (r, db') →
      r.content = "hi there".data ∧ r ∈ db'.comments) := by
  constructor
  · exact ((C2_comment_input_validation { users := [⟨7, "kev", 0, none⟩], nextId := 2 }
      ⟨7, "kev", 0, none⟩ 5 [] ⟨"a", "<b> </b>".data, none⟩ 0 ⟨[]⟩).1 rfl).1.mpr
      (Or.inl (by decide))
  · intro r db' hok
    have h := ((C2_comment_input_validation { users := [⟨7, "kev", 0, none⟩], nextId := 2 }
      ⟨7, "kev", 0, none⟩ 5 [] ⟨"a", "  hi   there ".data, none⟩ 0 ⟨[]⟩).1 rfl).2 r db' hok
    exact ⟨by rw [h.1]; decide, h.2⟩

/-! ## Claim C10 — comment like-count invariant -/

/-- All stored comments have a non-negative `like_count`. -/
def likeCountsNonneg (db : DB) : Prop :=
  ∀ c ∈ db.comments, 0 ≤ c.like_count

/-- One `POST /interact/comments/{id}/like` call viewed as a state step
(`op` = caller, time, comment id); an error leaves the session unchanged. -/
def toggleStep (db : DB) (op : User × Nat × Nat) : DB :=
  match toggle_comment_like db op.1 op.2.1 op.2.2 with
  | .ok (_, db') => db'
  | .error _ => db

theorem toggleStep_preserves (db : DB) (op : User × Nat × Nat)
    (h : likeCountsNonneg db) : likeCountsNonneg (toggleStep db op) := by
  cases hres : toggle_comment_like db op.1 op.2.1 op.2.2 with
  | error e =>
    simp only [toggleStep, hres]
    exact h
  | ok pr =>
    simp only [toggleStep, hres]
    rw [toggle_comment_like] at hres
    cases hf : findComment db op.2.2 with
    | none => rw [hf] at hres; simp at hres
    | some comment =>
      rw [hf] at hres
      have hc0 : 0 ≤ comment.like_count := h comment (List.mem_of_find?_eq_some hf)
      cases hl : db.commentLikes.find?
          (fun l => l.comment_id == op.2.2 && l.user_id == op.1.id) with
      | some el =>
        rw [hl] at hres
        simp only [Except.ok.injEq] at hres
        rw [← hres]
        intro x hx
        simp only [List.mem_map] at hx
        obtain ⟨a, ha, hax⟩ := hx
        by_cases hid : (a.id == comment.id) = true
        · rw [← hax]
          simp only [hid, if_true]
          exact le_max_left 0 _
        · rw [← hax]
          simp only [hid, if_false, Bool.false_eq_true]
          exact h a ha
      | none =>
        rw [hl] at hres
        simp only [Except.ok.injEq] at hres
        rw [← hres]
        intro x hx
        simp only [List.mem_map] at hx
        obtain ⟨a, ha, hax⟩ := hx
        by_cases hid : (a.id == comment.id) = true
        · rw [← hax]
          simp only [hid, if_true]
          show 0 ≤ comment.like_count + 1
          omega
        · rw [← hax]
          simp only [hid, if_false, Bool.false_eq_true]
          exact h a ha

theorem foldl_toggleStep_preserves (ops : List (User × Nat × Nat)) (db : DB)
    (h : likeCountsNonneg db) : likeCountsNonneg (ops.foldl toggleStep db) := by
  induction ops generalizing db with
  | nil => exact h
  | cons op rest ih => exact ih _ (toggleStep_preserves db op h)

/-- C10: `toggle_comment_like` increments `like_count` on like and clamps
the decrement at zero on unlike (`max(0, like_count - 1)`), so
`like_count ≥ 0` over all stored comments is preserved by every sequence
of toggle operations. -/
theorem C10_comment_like_nonneg (db : DB) (user : User) (now cid : Nat)
    (ops : List (User × Nat × Nat)) :
    (∀ c, findComment db cid = some c →
      (∀ el, db.commentLikes.find?
          (fun l => l.comment_id == cid && l.user_id == user.id) = some el →
        ∃ db', toggle_comment_like db user now cid =
          .ok (⟨"Comment unliked", false, max 0 (c.like_count - 1)⟩, db') ∧
          findComment db' cid = some { c with like_count := max 0 (c.like_count - 1) }) ∧
      (db.commentLikes.find?
          (fun l => l.comment_id == cid && l.user_id == user.id) = none →
        ∃ db', toggle_comment_like db user now cid =
          .ok (⟨"Comment liked", true, c.like_count + 1⟩, db') ∧
          findComment db' cid = some { c with like_count := c.like_count + 1 })) ∧
    (likeCountsNonneg db → likeCountsNonneg (ops.foldl toggleStep db)) := by
  constructor
  · intro c hc
    constructor
    · intro el hel
      refine ⟨{ db with
        commentLikes := db.commentLikes.filter (fun l => l.id != el.id),
        comments := db.comments.map (fun x => if x.id == c.id then
          { c with like_count := max 0 (c.like_count - 1) } else x) }, ?_, ?_⟩
      · simp [toggle_comment_like, hc, hel]
      · show (db.comments.map (fun x => if x.id == c.id then
            { c with like_count := max 0 (c.like_count - 1) } else x)).find?
            (fun x => x.id == cid) = _
        rw [findComment_map_update db.comments c.id cid
            ({ c with like_count := max 0 (c.like_count - 1) }) rfl,
          show db.comments.find? (fun x => x.id == cid) = some c from hc]
        simp
    · intro hel
      refine ⟨{ db with
        commentLikes := db.commentLikes ++ [⟨db.nextId, cid, user.id, now⟩],
        comments := db.comments.map (fun x => if x.id == c.id then
          { c with like_count := c.like_count + 1 } else x),
        nextId := db.nextId + 1 }, ?_, ?_⟩
      · simp [toggle_comment_like, hc, hel]
      · show (db.comments.map (fun x => if x.id == c.id then
            { c with like_count := c.like_count + 1 } else x)).find?
            (fun x => x.id == cid) = _
        rw [findComment_map_update db.comments c.id cid
            ({ c with like_count := c.like_count + 1 }) rfl,
          show db.comments.find? (fun x => x.id == cid) = some c from hc]
        simp
  · exact foldl_toggleStep_preserves ops db

/-- The comment of the C10 witness (`like_count` 0). -/
def c10comment : Comment :=
  { id := 3, url := "a", content := "hi".data, created_at := 1, user_id := 7 }

/-- The database of the C10 witness: one comment whose count is 0 and an
existing like, so the unlike branch exercises the clamp. -/
def c10db : DB :=
  { users := [⟨7, "kev", 0, none⟩], comments := [c10comment],
    commentLikes := [⟨2, 3, 7, 1⟩], nextId := 4 }

/-- Witness for C10 at concrete inputs. -/
theorem C10_comment_like_nonneg_witness :
    (∃ db', toggle_comment_like c10db ⟨7, "kev", 0, none⟩ 9 3 =
      .ok (⟨"Comment unliked", false, max 0 (0 - 1 : Int)⟩, db') ∧
      findComment db' 3 = some { c10comment with like_count := max 0 (0 - 1 : Int) }) ∧
    likeCountsNonneg ([(⟨7, "kev", 0, none⟩, 9, 3), (⟨7, "kev", 0, none⟩, 10, 3)].foldl
      toggleStep c10db) := by
  constructor
  · exact ((C10_comment_like_nonneg c10db ⟨7, "kev", 0, none⟩ 9 3 []).1
      c10comment (by decide)).1 ⟨2, 3, 7, 1⟩ (by decide)
  · exact (C10_comment_like_nonneg c10db ⟨7, "kev", 0, none⟩ 9 3
      [(⟨7, "kev", 0, none⟩, 9, 3), (⟨7, "kev", 0, none⟩, 10, 3)]).2
      (by simp [likeCountsNonneg, c10db, c10comment])

/-! ## Claim C6 — like toggle round trip -/

/-- C6: `POST /interact/like` removes the caller's existing like on the
normalised URL (answering `liked = false`) or creates one (`liked =
true`), always returns the URL's like count computed after the change, and
applying it twice restores both the caller's like state and the URL's like
count.  The hypotheses say the session respects the intended uniqueness of
`(url, user_id)` pairs, primary keys, and serial freshness. -/
theorem C6_like_toggle_roundtrip (db : DB) (user : User) (now now2 : Nat)
    (lk : LikeCreate)
    (hdup : (db.likes.filter (fun x =>
      x.user_id == user.id && x.url == lstripSlash lk.url)).length ≤ 1)
    (hids : (db.likes.map (fun x => x.id)).Nodup)
    (hfresh : ∀ x ∈ db.likes, x.id < db.nextId) :
    (∀ e, db.likes.find? (fun x =>
        x.user_id == user.id && x.url == lstripSlash lk.url) = some e →
      (toggle_like db user now lk).1.liked = false ∧
      (toggle_like db user now lk).2.likes =
        db.likes.filter (fun x => x.id != e.id)) ∧
    (db.likes.find? (fun x =>
        x.user_id == user.id && x.url == lstripSlash lk.url) = none →
      (toggle_like db user now lk).1.liked = true ∧
      (toggle_like db user now lk).2.likes =
        db.likes ++ [⟨db.nextId, lstripSlash lk.url, user.id, now⟩]) ∧
    ((toggle_like db user now lk).1.like_count =
      ((toggle_like db user now lk).2.likes.filter (fun x =>
        x.url == lstripSlash lk.url)).length) ∧
    (((toggle_like (toggle_like db user now lk).2 user now2 lk).2.likes.filter
        (fun x => x.user_id == user.id && x.url == lstripSlash lk.url)).length =
      (db.likes.filter (fun x =>
        x.user_id == user.id && x.url == lstripSlash lk.url)).length) ∧
    (((toggle_like (toggle_like db user now lk).2 user now2 lk).2.likes.filter
        (fun x => x.url == lstripSlash lk.url)).length =
      (db.likes.filter (fun x => x.url == lstripSlash lk.url)).length) := by
  refine ⟨?_, ?_, ?_, ?_⟩
  · intro e he
    constructor
    · simp [toggle_like, he]
    · simp [toggle_like, he]
  · intro he
    constructor
    · simp [toggle_like, he]
    · simp [toggle_like, he]
  · cases hfind : db.likes.find? (fun x =>
        x.user_id == user.id && x.url == lstripSlash lk.url) with
    | some e => simp [toggle_like, hfind]
    | none => simp [toggle_like, hfind]
  · cases hfind : db.likes.find? (fun x =>
        x.user_id == user.id && x.url == lstripSlash lk.url) with
    | some e =>
      have hpe0 := List.find?_some hfind
      have hpe : (e.user_id == user.id && e.url == lstripSlash lk.url) = true := hpe0
      have hme : e ∈ db.likes := List.mem_of_find?_eq_some hfind
      have hqe : (e.url == lstripSlash lk.url) = true := by
        simp only [Bool.and_eq_true] at hpe
        exact hpe.2
      have ht1 : (toggle_like db user now lk).2 =
          { db with likes := db.likes.filter (fun x => x.id != e.id) } := by
        simp [toggle_like, hfind]
      have h2 : (db.likes.filter (fun x => x.id != e.id)).find? (fun x =>
          x.user_id == user.id && x.url == lstripSlash lk.url) = none := by
        rw [List.find?_eq_none]
        intro x hx hpx
        have hxmem := (List.mem_filter.mp hx).1
        have hxid := (List.mem_filter.mp hx).2
        have hxe : x = e := mem_of_length_le_one hdup
          (List.mem_filter.mpr ⟨hxmem, hpx⟩) (List.mem_filter.mpr ⟨hme, hpe⟩)
        rw [hxe] at hxid
        simp at hxid
      have ht2 : (toggle_like (toggle_like db user now lk).2 user now2 lk).2.likes =
          db.likes.filter (fun x => x.id != e.id) ++
            [⟨db.nextId, lstripSlash lk.url, user.id, now2⟩] := by
        rw [ht1]
        simp [toggle_like, h2]
      rw [ht2]
      constructor
      · rw [List.filter_append]
        have hnil : (db.likes.filter (fun x => x.id != e.id)).filter (fun x =>
            x.user_id == user.id && x.url == lstripSlash lk.url) = [] := by
          rw [List.filter_eq_nil_iff]
          intro a ha hpa
          rw [List.find?_eq_none] at h2
          exact h2 a ha hpa
        rw [hnil]
        have hlen : 0 < (db.likes.filter (fun x =>
            x.user_id == user.id && x.url == lstripSlash lk.url)).length :=
          List.length_pos_of_mem (List.mem_filter.mpr ⟨hme, hpe⟩)
        have hone : (List.filter (fun x => x.user_id == user.id &&
            x.url == lstripSlash lk.url)
            ([⟨db.nextId, lstripSlash lk.url, user.id, now2⟩] : List Like)).length = 1 := by
          simp
        rw [List.nil_append, hone]
        omega
      · rw [List.filter_append]
        have hone : (List.filter (fun x => x.url == lstripSlash lk.url)
            ([⟨db.nextId, lstripSlash lk.url, user.id, now2⟩] : List Like)).length = 1 := by
          simp
        rw [List.length_append, hone]
        have hcomm : (db.likes.filter (fun x => x.id != e.id)).filter
            (fun x => x.url == lstripSlash lk.url) =
            db.likes.filter (fun x =>
              (x.url == lstripSlash lk.url) && x.id != e.id) := by
          rw [List.filter_filter]
        rw [hcomm]
        exact filter_ne_id_length db.likes e hme hids _ hqe
    | none =>
      have ht1 : (toggle_like db user now lk).2 =
          { db with
            likes := db.likes ++ ([⟨db.nextId, lstripSlash lk.url, user.id, now⟩] : List Like),
            nextId := db.nextId + 1 } := by
        simp [toggle_like, hfind]
      have h2 : ((db.likes ++ ([⟨db.nextId, lstripSlash lk.url, user.id, now⟩] : List Like)).find?
          (fun x => x.user_id == user.id && x.url == lstripSlash lk.url)) =
          some ⟨db.nextId, lstripSlash lk.url, user.id, now⟩ := by
        rw [List.find?_append, hfind]
        simp
      have hkeep : (db.likes.filter (fun x => x.id != db.nextId)) = db.likes := by
        rw [List.filter_eq_self]
        intro a ha
        have := hfresh a ha
        simp only [bne_iff_ne, ne_eq]
        omega
      have ht2 : (toggle_like (toggle_like db user now lk).2 user now2 lk).2.likes =
          db.likes := by
        rw [ht1]
        simp only [toggle_like]
        rw [h2]
        simp only [List.filter_append, List.filter_cons, List.filter_nil]
        simp only [bne_self_eq_false, Bool.false_eq_true, if_false]
        rw [hkeep]
        simp
      rw [ht2]
      exact ⟨rfl, rfl⟩

/-- The database of the C6 witness: one like by user 7 on url `a`. -/
def c6db : DB := { users := [⟨7, "kev", 0, none⟩], likes := [⟨1, "a", 7, 0⟩], nextId := 2 }

/-- Witness for C6 at concrete inputs. -/
theorem C6_like_toggle_roundtrip_witness :
    (toggle_like c6db ⟨7, "kev", 0, none⟩ 5 ⟨"/a"⟩).1.liked = false ∧
    (((toggle_like (toggle_like c6db ⟨7, "kev", 0, none⟩ 5 ⟨"/a"⟩).2
        ⟨7, "kev", 0, none⟩ 6 ⟨"/a"⟩).2.likes.filter
        (fun x => x.url == lstripSlash "/a")).length =
      (c6db.likes.filter (fun x => x.url == lstripSlash "/a")).length) := by
  constructor
  · exact ((C6_like_toggle_roundtrip c6db ⟨7, "kev", 0, none⟩ 5 6 ⟨"/a"⟩
      (by decide) (by decide) (by decide)).1 ⟨1, "a", 7, 0⟩ (by decide)).1
  · exact (C6_like_toggle_roundtrip c6db ⟨7, "kev", 0, none⟩ 5 6 ⟨"/a"⟩
      (by decide) (by decide) (by decide)).2.2.2.2

/-! ## Claim C1 — nested replies -/

/-- Input exhibiting the `parent_comment_id = 0` truthiness gap of
`comment_url` (`if comment.parent_comment_id:` is false for `0`). -/
def c1input : CommentCreate := ⟨"blog/post", "hello".data, some 0⟩

/-- Database for the C1 counterexample: no comments at all. -/
def c1db : DB := { users := [⟨1, "kev", 0, none⟩], nextId := 1 }

/-- Counterexample to C1 as stated: the request sets `parent_comment_id`
(to `0`), no parent comment exists (the table is empty), yet the POST
succeeds instead of answering 404 — the guard
`if comment.parent_comment_id:` treats `0` like `None`. -/
theorem C1_nested_replies_counterexample :
    c1input.parent_comment_id = some 0 ∧
    c1db.comments = [] ∧
    (comment_url c1db ⟨1, "kev", 0, none⟩ 5 [] c1input).isOk = true := by
  refine ⟨rfl, rfl, ?_⟩
  decide

/-- C1 (amended): for a request whose `parent_comment_id` is a nonzero id
and whose content passes validation, the POST answers 404 when the parent
does not exist and 400 when it is removed or hidden; on success the reply
row is stored (it is the row under the fresh serial id, carrying that
`parent_comment_id` and the sanitized content) and the parent's
`reply_count` grows by exactly one.  In `GET /interact/comments/{url}`,
every surviving reply whose parent is itself displayed appears in that
parent's `replies` list, which is sorted oldest-first by `created_at`.
`hfresh` is the serial-key freshness the database guarantees: no stored
comment already uses an id at or past the sequence head. -/
theorem C1_nested_replies (db : DB) (user : User) (now : Nat)
    (prof : List (List Char)) (input : CommentCreate) (pid : Nat)
    (dbg : DB) (urlg sortg : String) (c p : Comment)
    (hpid : input.parent_comment_id = some pid) (hpid0 : pid ≠ 0)
    (hvalid : validate_comment_content prof (sanitize_content input.content) = none)
    (hfresh : ∀ x ∈ db.comments, x.id < db.nextId) :
    (findComment db pid = none →
      comment_url db user now prof input = .error ⟨404, "Parent comment not found"⟩) ∧
    (∀ parent, findComment db pid = some parent →
      (parent.is_removed = true ∨ parent.is_hidden = true) →
      comment_url db user now prof input =
        .error ⟨400, "Cannot reply to removed or hidden comment"⟩) ∧
    (∀ parent, findComment db pid = some parent →
      parent.is_removed = false → parent.is_hidden = false →
      ∃ r db', comment_url db user now prof input = .ok (r, db') ∧
        r.parent_comment_id = some pid ∧
        r.content = sanitize_content input.content ∧
        findComment db' db.nextId = some r ∧
        findComment db' pid = some { parent with reply_count := parent.reply_count + 1 }) ∧
    (c ∈ visibleComments dbg (lstripSlash urlg) →
      p ∈ visibleComments dbg (lstripSlash urlg) →
      c.parent_comment_id = some p.id →
      ∃ rs, (p.id, rs) ∈ (get_comments_with_usernames dbg urlg sortg).repliesOf ∧
        c ∈ rs ∧ List.Sorted createdAsc rs) := by
  have htr : truthyNat input.parent_comment_id = true := by
    rw [hpid]
    simp [truthyNat, hpid0]
  have hgetD : input.parent_comment_id.getD 0 = pid := by rw [hpid]; rfl
  refine ⟨?_, ?_, ?_, ?_⟩
  · intro hfound
    simp [comment_url, hvalid, htr, hgetD, hfound]
  · intro parent hfound hrh
    have hb : (parent.is_removed || parent.is_hidden) = true := by
      rcases hrh with h | h <;> simp [h]
    simp [comment_url, hvalid, htr, hgetD, hfound, hb]
  · intro parent hfound hrm hhd
    have hb : (parent.is_removed || parent.is_hidden) = false := by
      simp [hrm, hhd]
    have hparid : parent.id = pid := by
      have := List.find?_some hfound
      simpa using this
    have hpidlt : pid < db.nextId := by
      have h := hfresh parent (List.mem_of_find?_eq_some hfound)
      rw [hparid] at h
      exact h
    have hcomments : (insertComment db user now (lstripSlash input.url)
        (sanitize_content input.content) input.parent_comment_id).2.comments =
        (db.comments ++ [(insertComment db user now (lstripSlash input.url)
          (sanitize_content input.content) input.parent_comment_id).1]).map
        (fun x => if some x.id == input.parent_comment_id then
          { x with reply_count := x.reply_count + 1 } else x) := by
      simp [insertComment, htr]
    refine ⟨(insertComment db user now (lstripSlash input.url)
        (sanitize_content input.content) input.parent_comment_id).1,
      (insertComment db user now (lstripSlash input.url)
        (sanitize_content input.content) input.parent_comment_id).2,
      ?_, ?_, rfl, ?_, ?_⟩
    · simp [comment_url, hvalid, htr, hgetD, hfound, hb]
    · rw [show (insertComment db user now (lstripSlash input.url)
          (sanitize_content input.content) input.parent_comment_id).1.parent_comment_id
          = input.parent_comment_id from rfl, hpid]
    · show (insertComment db user now (lstripSlash input.url)
          (sanitize_content input.content) input.parent_comment_id).2.comments.find?
          (fun x => x.id == db.nextId) =
        some (insertComment db user now (lstripSlash input.url)
          (sanitize_content input.content) input.parent_comment_id).1
      rw [hcomments, List.map_append, List.find?_append]
      rw [find?_map_invariant (fun x => x.id == db.nextId)
        (fun x => if some x.id == input.parent_comment_id then
          { x with reply_count := x.reply_count + 1 } else x) db.comments
        (fun a => by
          by_cases ha : (some a.id == input.parent_comment_id) = true <;> simp [ha])]
      rw [show db.comments.find? (fun x => x.id == db.nextId) = none from
        List.find?_eq_none.mpr (fun x hx => by
          have h := hfresh x hx
          simp only [beq_iff_eq]
          omega)]
      have hne : db.nextId ≠ pid := by omega
      simp [insertComment, hpid, hne]
    · show (insertComment db user now (lstripSlash input.url)
          (sanitize_content input.content) input.parent_comment_id).2.comments.find?
          (fun x => x.id == pid) =
        some { parent with reply_count := parent.reply_count + 1 }
      rw [hcomments, List.map_append, List.find?_append]
      rw [find?_map_invariant (fun x => x.id == pid)
        (fun x => if some x.id == input.parent_comment_id then
          { x with reply_count := x.reply_count + 1 } else x) db.comments
        (fun a => by
          by_cases ha : (some a.id == input.parent_comment_id) = true <;> simp [ha])]
      rw [show db.comments.find? (fun x => x.id == pid) = some parent from hfound]
      simp [hpid, hparid]
  · intro hc hp hcp
    refine ⟨sortByCreatedAt ((visibleComments dbg (lstripSlash urlg)).filter
      (fun x => x.parent_comment_id == some p.id)), ?_, ?_, ?_⟩
    · rw [repliesOf_eq]
      exact List.mem_map_of_mem _ hp
    · unfold sortByCreatedAt
      rw [(List.perm_insertionSort createdAsc _).mem_iff]
      refine List.mem_filter.mpr ⟨hc, ?_⟩
      rw [hcp]
      simp
    · exact List.sorted_insertionSort createdAsc _

/-- Parent comment of the C1 witness. -/
def c1parent : Comment :=
  { id := 10, url := "a", content := "parent".data, created_at := 1, user_id := 1 }

/-- Database of the C1 witness POST. -/
def c1wdb : DB := { users := [⟨1, "kev", 0, none⟩], comments := [c1parent], nextId := 11 }

/-- Reply comment of the C1 witness GET. -/
def c1reply : Comment :=
  { id := 11, url := "a", content := "nice".data, created_at := 2, user_id := 1,
    parent_comment_id := some 10 }

/-- Database of the C1 witness GET: a parent and its surviving reply. -/
def c1gdb : DB :=
  { users := [⟨1, "kev", 0, none⟩], comments := [c1parent, c1reply], nextId := 12 }

/-- Witness for C1 at concrete inputs. -/
theorem C1_nested_replies_witness :
    comment_url { users := [⟨1, "kev", 0, none⟩], nextId := 1 } ⟨1, "kev", 0, none⟩ 5 []
      ⟨"a", "nice".data, some 10⟩ = .error ⟨404, "Parent comment not found"⟩ ∧
    (∃ r db', comment_url c1wdb ⟨1, "kev", 0, none⟩ 5 [] ⟨"a", "nice".data, some 10⟩ =
        .ok (r, db') ∧
      r.parent_comment_id = some 10 ∧
      findComment db' 11 = some r ∧
      findComment db' 10 = some { c1parent with reply_count := 1 }) ∧
    (∃ rs, (10, rs) ∈ (get_comments_with_usernames c1gdb "a" "recent").repliesOf ∧
      c1reply ∈ rs ∧ List.Sorted createdAsc rs) := by
  refine ⟨?_, ?_, ?_⟩
  · exact (C1_nested_replies { users := [⟨1, "kev", 0, none⟩], nextId := 1 }
      ⟨1, "kev", 0, none⟩ 5 [] ⟨"a", "nice".data, some 10⟩ 10 {} "x" "recent"
      c1parent c1parent rfl (by decide) (by decide) (by decide)).1 rfl
  · obtain ⟨r, db', h1, h2, _, h4, h5⟩ := (C1_nested_replies c1wdb ⟨1, "kev", 0, none⟩ 5 []
      ⟨"a", "nice".data, some 10⟩ 10 {} "x" "recent" c1parent c1parent rfl
      (by decide) (by decide) (by decide)).2.2.1 c1parent (by decide) rfl rfl
    exact ⟨r, db', h1, h2, h4, h5⟩
  · obtain ⟨rs, h1, h2, h3⟩ := (C1_nested_replies c1wdb ⟨1, "kev", 0, none⟩ 5 []
      ⟨"a", "nice".data, some 10⟩ 10 c1gdb "a" "recent" c1reply c1parent rfl
      (by decide) (by decide) (by decide)).2.2.2 (by decide) (by decide) rfl
    exact ⟨rs, h1, h2, h3⟩

end Chatter
